import Mathlib

/-!
Verification of the record store and reporting engine of the personal
finance manager (`finance.c`, C11, single file).

The development is a shallow embedding of the C program:

* C strings (dates, names, notes) are modelled as `List Nat` — the list of
  character byte values up to the terminating NUL.  `strcmp` becomes a
  lexicographic comparison on those lists.
* C `double` amounts are modelled as exact rationals `ℚ`.  The persistence
  layer of the C program never interprets the 8 amount bytes (it `memcpy`s
  them verbatim), so for persistence the rational is serialized through an
  injective fixed-width 8-byte image (numerator and denominator, 4 bytes
  each); this is faithful because the round-trip properties only need the
  field image to be restored bit for bit.
* The three global stores (`txns`, `cats`, `budgets`) and their `next_id`
  counters form an explicit `State` record; the data files on disk form an
  explicit `FS` record of optional byte lists.
* Interactive prompts (`read_line`, `read_int`, `read_double`) are modelled
  by passing the raw input line of each prompt as a `List Nat` and applying
  models of `atoi` / `atof` / `sscanf` to it.  The current date used as the
  default for a blank date entry is passed in as the `today` input.
-/

/-! ## Byte-string utilities -/

/-- Character codes of a Lean string literal, used to write concrete byte
strings in examples and witnesses. -/
def str (s : String) : List Nat := s.toList.map Char.toNat

/-- Model of `strcmp` restricted to its sign: lexicographic comparison of two
NUL-free byte strings (list end plays the role of the terminating NUL, which
is smaller than every other byte). -/
def strcmpOrd : List Nat → List Nat → Ordering
  | [], [] => Ordering.eq
  | [], _ :: _ => Ordering.lt
  | _ :: _, [] => Ordering.gt
  | a :: as, b :: bs =>
    if a < b then Ordering.lt
    else if b < a then Ordering.gt
    else strcmpOrd as bs

/-- `compare_dates` from the source: `strcmp` on the two date strings
(the sign of the result is all callers use). -/
def compare_dates (a b : List Nat) : Ordering := strcmpOrd a b

/-- ASCII decimal digit test. -/
def isDigitB (c : Nat) : Bool := 48 ≤ c && c ≤ 57

/-- `isspace` for the byte values `scanf`/`atoi`/`atof` skip: space and the
control characters 9–13. -/
def isSpaceB (c : Nat) : Bool := c == 32 || (9 ≤ c && c ≤ 13)

/-- Skip leading whitespace bytes. -/
def skipWs : List Nat → List Nat
  | [] => []
  | c :: r => if isSpaceB c then skipWs r else c :: r

/-- Numeric value of a list of ASCII digit bytes. -/
def digitsVal (ds : List Nat) : Nat := ds.foldl (fun a c => a * 10 + (c - 48)) 0

/-- Lower-case a byte as `tolower` does on ASCII letters. -/
def lowerB (c : Nat) : Nat := if 65 ≤ c ∧ c ≤ 90 then c + 32 else c

/-- `strcasecmp(a, b) == 0`: equality after byte-wise `tolower`. -/
def strcaseEq (a b : List Nat) : Bool := a.map lowerB == b.map lowerB

/-! ## Models of the libc number parsers used by the program -/

/-- Model of `atoi`: skip whitespace, optional sign, maximal run of digits
(zero digits parse as 0). -/
def atoiI (s : List Nat) : Int :=
  match skipWs s with
  | 45 :: r => -(digitsVal (r.takeWhile isDigitB) : Int)
  | 43 :: r => (digitsVal (r.takeWhile isDigitB) : Int)
  | s1 => (digitsVal (s1.takeWhile isDigitB) : Int)

/-- Integer-and-fraction part of `atof` on an unsigned decimal literal
`digits[.digits]`; anything else contributes 0, like `strtod` with no
conversion. -/
def atofCore (u : List Nat) : ℚ :=
  let ip := u.takeWhile isDigitB
  let fp :=
    match u.dropWhile isDigitB with
    | 46 :: r => r.takeWhile isDigitB
    | _ => []
  (digitsVal ip : ℚ) + (digitsVal fp : ℚ) / (10 : ℚ) ^ fp.length

/-- Model of `atof` on the plain decimal forms the program deals in
(optional sign, digits, optional fraction; exponent and hexadecimal float
forms are not modelled — no claim exercises them). -/
def atofQ (s : List Nat) : ℚ :=
  match skipWs s with
  | 45 :: r => -(atofCore r)
  | 43 :: r => atofCore r
  | s1 => atofCore s1

/-! ## Model of `sscanf(s, "%4d-%2d-%2d", ...)` and `parse_date` -/

/-- Take at most `w` leading digit bytes (the width limit of a `%wd`
conversion). -/
def takeDigitsW : Nat → List Nat → List Nat × List Nat
  | 0, s => ([], s)
  | _ + 1, [] => ([], [])
  | w + 1, c :: r =>
    if isDigitB c then
      let p := takeDigitsW w r
      (c :: p.1, p.2)
    else ([], c :: r)

/-- One `%wd` conversion of `sscanf`: skip whitespace, optional sign (which
counts toward the width), then at least one digit; `none` is a matching
failure. -/
def scanD (w : Nat) (s : List Nat) : Option (Int × List Nat) :=
  match skipWs s with
  | 45 :: r =>
    let p := takeDigitsW (w - 1) r
    if p.1 = [] then none else some (-(digitsVal p.1 : Int), p.2)
  | 43 :: r =>
    let p := takeDigitsW (w - 1) r
    if p.1 = [] then none else some ((digitsVal p.1 : Int), p.2)
  | s1 =>
    let p := takeDigitsW w s1
    if p.1 = [] then none else some ((digitsVal p.1 : Int), p.2)

/-- `parse_date` from the source: the string must have length 10, must match
`sscanf("%4d-%2d-%2d")` with all three conversions succeeding, and the month
must be 1–12 and the day 1–31.  (The `struct tm` out-parameter is ignored by
every caller that matters to the claims.) -/
def parse_date (s : List Nat) : Bool :=
  if s.length ≠ 10 then false
  else
    match scanD 4 s with
    | none => false
    | some (_, r1) =>
      match r1 with
      | 45 :: r2 =>
        match scanD 2 r2 with
        | none => false
        | some (m, r3) =>
          match r3 with
          | 45 :: r4 =>
            match scanD 2 r4 with
            | none => false
            | some (d, _) =>
              if 1 ≤ m ∧ m ≤ 12 ∧ 1 ≤ d ∧ d ≤ 31 then true else false
          | _ => false
      | _ => false

/-- The fixed zero-padded form the specification describes: exactly
`YYYY-MM-DD` with four digits, hyphen, two digits forming a month 1–12,
hyphen, two digits forming a day 1–31.  This definition follows the
specification's words; it is the yardstick `parse_date` is measured
against. -/
def canonicalDateB (s : List Nat) : Bool :=
  match s with
  | [y1, y2, y3, y4, h1, m1, m2, h2, d1, d2] =>
    isDigitB y1 && isDigitB y2 && isDigitB y3 && isDigitB y4 &&
    h1 == 45 && isDigitB m1 && isDigitB m2 && h2 == 45 &&
    isDigitB d1 && isDigitB d2 &&
    (1 ≤ digitsVal [m1, m2] && digitsVal [m1, m2] ≤ 12) &&
    (1 ≤ digitsVal [d1, d2] && digitsVal [d1, d2] ≤ 31)
  | _ => false

/-! ## Decimal formatting (`%d`, `%04d`, `%02d`, `%.2f`) -/

/-- Digit bytes of a natural number, fuel-indexed so that it reduces in the
kernel; `natDigits` supplies sufficient fuel. -/
def natDigitsFuel : Nat → Nat → List Nat
  | 0, _ => []
  | f + 1, n => if n < 10 then [48 + n] else natDigitsFuel f (n / 10) ++ [48 + n % 10]

/-- Decimal digit bytes of a natural number (`printf("%d")` for the
non-negative values the program prints). -/
def natDigits (n : Nat) : List Nat := natDigitsFuel (n + 1) n

/-- Zero-pad a digit string on the left to width `w` (`%0wd`). -/
def padZ (w : Nat) (l : List Nat) : List Nat := List.replicate (w - l.length) 48 ++ l

/-- `%04d` of a natural number. -/
def fmt4 (n : Nat) : List Nat := padZ 4 (natDigits n)

/-- `%02d` of a natural number. -/
def fmt2 (n : Nat) : List Nat := padZ 2 (natDigits n)

/-- The month-start string `snprintf(smin, 11, "%04d-%02d-01", year, month)`
builds: zero-padded year, hyphen, zero-padded month, `-01`, truncated to the
10 characters that fit the `DATE_STRLEN` buffer. -/
def monthStartStr (y m : Nat) : List Nat :=
  (fmt4 y ++ [45] ++ fmt2 m ++ [45, 48, 49]).take 10

/-- `printf("%.2f")` on the exact 2-decimal rationals the claims evaluate it
at: sign, integer part, dot, two fraction digits.  (Rounding of values that
are not exact multiples of 1/100 is modelled as round-half-up on the exact
rational; every claim only formats values where all rounding rules agree.) -/
def fmt2f (q : ℚ) : List Nat :=
  let c : ℚ := |q| * 100 + 1 / 2
  let n : Nat := c.num.toNat / c.den
  (if q < 0 then [45] else []) ++ natDigits (n / 100) ++ [46] ++ fmt2 (n % 100)

/-! ## The data model -/

/-- `TxnType`: `TYPE_EXPENSE = 0`, `TYPE_INCOME = 1`. -/
inductive TxnType where
  | Expense
  | Income
deriving DecidableEq, Repr, Inhabited

/-- Integer code of a `TxnType` (its C enum value). -/
def typeCode : TxnType → Nat
  | TxnType.Expense => 0
  | TxnType.Income => 1

/-- A `Transaction` record.  `date` and `note` are the byte strings stored in
the fixed `char` arrays (content up to the NUL); `amount` is the exact value
of the `double`. -/
structure Transaction where
  id : Nat
  date : List Nat
  amount : ℚ
  category_id : Nat
  type : TxnType
  note : List Nat
deriving DecidableEq, Repr, Inhabited

/-- A `Category` record. -/
structure Category where
  id : Nat
  name : List Nat
deriving DecidableEq, Repr, Inhabited

/-- A `BudgetEntry` record. -/
structure BudgetEntry where
  category_id : Nat
  year : Nat
  month : Nat
  amount : ℚ
deriving DecidableEq, Repr

/-- The three in-memory stores with their `next_id` counters
(`budgets` has no counter in the source). -/
structure State where
  cats : List Category
  catNext : Nat
  txns : List Transaction
  txnNext : Nat
  budgets : List BudgetEntry
deriving DecidableEq, Repr

/-- The freshly initialised globals: empty stores, both counters 1. -/
def initState : State := ⟨[], 1, [], 1, []⟩

/-! ## Store lookups -/

/-- `find_category_by_id`: does some category carry this id? -/
def find_category_by_id (cats : List Category) (id : Nat) : Bool :=
  cats.any (fun c => c.id == id)

/-- `find_category_by_id` for an id read by `read_int` (an `int` in C, so
possibly negative; a negative id never matches). -/
def findCatIdInt (cats : List Category) (i : Int) : Bool :=
  cats.any (fun c => (c.id : Int) == i)

/-- `find_category_index_by_id`: index of the first category with this id,
written as the source's scanning loop. -/
def find_category_index_by_id (cats : List Category) (id : Nat) : Option Nat :=
  match cats with
  | [] => none
  | c :: cs =>
    if c.id = id then some 0
    else (find_category_index_by_id cs id).map (· + 1)

/-- `find_txn_index_by_id`: index of the first transaction with this id,
written as the source's scanning loop. -/
def find_txn_index_by_id (txns : List Transaction) (id : Nat) : Option Nat :=
  match txns with
  | [] => none
  | t :: ts =>
    if t.id = id then some 0
    else (find_txn_index_by_id ts id).map (· + 1)

/-! ## CRUD operations on the in-memory stores -/

/-- `add_category`: reject an empty name, otherwise append a category named
by the first 63 bytes of the input line (the `name[64]` buffer) under the
next category id. -/
def add_category (nameInp : List Nat) (s : State) : State :=
  if nameInp = [] then s
  else
    { s with
      cats := s.cats ++ [⟨s.catNext, nameInp.take 63⟩]
      catNext := s.catNext + 1 }

/-- The one input line read by each prompt of `add_transaction`, plus the
current date (`localtime`) used when the date line is blank, plus the name
line consumed by the `add_category` sub-flow that runs only when no
category exists yet. -/
structure AddTxnInput where
  today : List Nat
  dateInp : List Nat
  typeInp : List Nat
  amountInp : List Nat
  newCatInp : List Nat
  catIdInp : List Nat
  noteInp : List Nat
deriving DecidableEq, Repr

/-- `add_transaction`.  Mirrors the source order: the transaction id counter
is incremented first (`t.id = txns.next_id++`); then the date (default
`today` when blank, at most 10 bytes fit the buffer) must pass `parse_date`;
the type line is read with `atoi` and anything but 1 means Expense; the
amount must be strictly positive; if no category exists the interactive
`add_category` sub-flow runs on `newCatInp` and the add aborts if the store
is still empty; the chosen category id must resolve; finally the
transaction is appended.  The returned flag is `true` exactly when a
transaction was appended. -/
def add_transaction (inp : AddTxnInput) (s : State) : State × Bool :=
  let tid := s.txnNext
  let s1 : State := { s with txnNext := s.txnNext + 1 }
  let date := if inp.dateInp = [] then inp.today.take 10 else inp.dateInp.take 10
  if parse_date date = false then (s1, false)
  else
    let ty := if atoiI inp.typeInp = 1 then TxnType.Income else TxnType.Expense
    let amt := atofQ inp.amountInp
    if amt ≤ 0 then (s1, false)
    else
      let s2 := if s1.cats = [] then add_category inp.newCatInp s1 else s1
      if s2.cats = [] then (s2, false)
      else
        let cid := atoiI inp.catIdInp
        if findCatIdInt s2.cats cid = false then (s2, false)
        else
          ({ s2 with
              txns := s2.txns ++
                [⟨tid, date, amt, cid.toNat, ty, inp.noteInp.take 255⟩] },
            true)

/-- The five input lines read by `edit_transaction` after the id prompt. -/
structure EditInput where
  dateInp : List Nat
  typeInp : List Nat
  amountInp : List Nat
  catIdInp : List Nat
  noteInp : List Nat
deriving DecidableEq, Repr

/-- The field-by-field update `edit_transaction` applies to the found
transaction: a non-blank date is taken when it parses; the type is set
whenever the type line reads (via `atoi`) as 0 or 1 — a blank line reads as
0; the amount is taken when strictly positive; the category id is taken
when non-zero and resolvable; a non-blank note replaces the note. -/
def applyEdit (inp : EditInput) (cats : List Category) (t : Transaction) : Transaction :=
  let t1 := if inp.dateInp ≠ [] ∧ parse_date (inp.dateInp.take 10) = true then
      { t with date := inp.dateInp.take 10 } else t
  let tp := atoiI inp.typeInp
  let t2 := if tp = 0 ∨ tp = 1 then
      { t1 with type := if tp = 1 then TxnType.Income else TxnType.Expense } else t1
  let a := atofQ inp.amountInp
  let t3 := if 0 < a then { t2 with amount := a } else t2
  let cid := atoiI inp.catIdInp
  let t4 := if cid ≠ 0 ∧ findCatIdInt cats cid = true then
      { t3 with category_id := cid.toNat } else t3
  if inp.noteInp ≠ [] then { t4 with note := inp.noteInp.take 255 } else t4

/-- `edit_transaction`: find the first transaction with the given id and
update it in place; an unknown id changes nothing. -/
def edit_transaction (id : Nat) (inp : EditInput) (s : State) : State :=
  match find_txn_index_by_id s.txns id with
  | none => s
  | some i =>
    { s with txns := s.txns.set i (applyEdit inp s.cats (s.txns.getD i default)) }

/-- Outcome reported by `remove_category`. -/
inductive RemoveOutcome where
  | notFound
  | referenced
  | deleted
deriving DecidableEq, Repr

/-- Swap-with-last deletion at index `i`: overwrite slot `i` with the last
element, then shrink by one. -/
def swapRemove (l : List Category) (i : Nat) : List Category :=
  (l.set i (l.getD (l.length - 1) default)).dropLast

/-- `remove_category`: an unknown id is a no-op; an id referenced by some
transaction's `category_id` is refused (referential-integrity guard);
otherwise the category is removed by swap-with-last. -/
def remove_category (id : Nat) (s : State) : State × RemoveOutcome :=
  match find_category_index_by_id s.cats id with
  | none => (s, RemoveOutcome.notFound)
  | some i =>
    if s.txns.any (fun t => t.category_id == id) then (s, RemoveOutcome.referenced)
    else ({ s with cats := swapRemove s.cats i }, RemoveOutcome.deleted)

/-- Does a budget entry carry the given `(category_id, year, month)` key? -/
def budKey (cid y m : Nat) (b : BudgetEntry) : Bool :=
  b.category_id == cid && b.year == y && b.month == m

/-- The in-place upsert at the heart of `set_budget`: overwrite the amount
of the first entry with the matching key, or append a fresh entry when no
key matches. -/
def setBudgetList (cid y m : Nat) (amt : ℚ) : List BudgetEntry → List BudgetEntry
  | [] => [⟨cid, y, m, amt⟩]
  | b :: bs =>
    if budKey cid y m b then { b with amount := amt } :: bs
    else b :: setBudgetList cid y m amt bs

/-- `set_budget`: the category must exist, the month must be 1–12 and the
amount non-negative; then upsert by `(category_id, year, month)`. -/
def set_budget (cid y m : Nat) (amt : ℚ) (s : State) : State :=
  if find_category_by_id s.cats cid = false then s
  else if m < 1 ∨ 12 < m then s
  else if amt < 0 then s
  else { s with budgets := setBudgetList cid y m amt s.budgets }

/-! ## The monthly category aggregation -/

/-- One loop iteration of `total_for_category_month`: skip transactions of
other categories, skip dates before `smin` or at/after `smax`, add Expense
amounts and subtract Income amounts. -/
def tfcmStep (cid : Nat) (smin smax : List Nat) (total : ℚ) (t : Transaction) : ℚ :=
  if t.category_id ≠ cid then total
  else if compare_dates t.date smin = Ordering.lt then total
  else if compare_dates t.date smax ≠ Ordering.lt then total
  else if t.type = TxnType.Expense then total + t.amount
  else total - t.amount

/-- `total_for_category_month`: the signed net over the half-open month
interval `[%04d-%02d-01 of (year, month), %04d-%02d-01 of the next month)`,
where the next month of December wraps to January of the following year. -/
def total_for_category_month (txns : List Transaction) (cat_id year month : Nat) : ℚ :=
  let smin := monthStartStr year month
  let nmonth := if month = 12 then 1 else month + 1
  let nyear := if month = 12 then year + 1 else year
  let smax := monthStartStr nyear nmonth
  txns.foldl (tfcmStep cat_id smin smax) 0

/-- The claim-side month-membership predicate: category matches and the
date lies in the half-open interval (spec wording, compared against the
loop above). -/
def spec_month_match (cid : Nat) (smin smax : List Nat) (ty : TxnType) (t : Transaction) : Bool :=
  decide (t.category_id = cid ∧ compare_dates t.date smin ≠ Ordering.lt ∧
    compare_dates t.date smax = Ordering.lt ∧ t.type = ty)

/-- Sum of the amounts of a list of transactions. -/
def sumAmounts (l : List Transaction) : ℚ := (l.map Transaction.amount).sum

/-! ## CSV transcoder

A CSV file is modelled as a list of lines, each a byte string without its
trailing newline. -/

/-- The header line `export_csv` writes. -/
def csvHeader : List Nat := str "id,date,type,amount,category,note"

/-- Category name shown for a transaction: the first category with the
matching id, or `UNKNOWN`. -/
def catNameOf (cats : List Category) (cid : Nat) : List Nat :=
  match cats.find? (fun c => c.id == cid) with
  | some c => c.name
  | none => str "UNKNOWN"

/-- One exported data line:
`fprintf(f, "%d,%s,%d,%.2f,%s,%s", id, date, type, amount, name, note)`. -/
def export_line (cats : List Category) (t : Transaction) : List Nat :=
  natDigits t.id ++ [44] ++ t.date ++ [44] ++ natDigits (typeCode t.type) ++ [44] ++
    fmt2f t.amount ++ [44] ++ catNameOf cats t.category_id ++ [44] ++ t.note

/-- `export_csv`: the header line followed by one line per transaction. -/
def export_csv (s : State) : List (List Nat) :=
  csvHeader :: s.txns.map (export_line s.cats)

/-- One `strtok` call on the remaining input: skip leading delimiters, take
the maximal delimiter-free run as the token, and resume after the
delimiter that ended it; `none` when only delimiters (or nothing) remain. -/
def strtokStep (delims : List Nat) (s : List Nat) : Option (List Nat × List Nat) :=
  match s.dropWhile (fun c => delims.contains c) with
  | [] => none
  | s1 =>
    some (s1.takeWhile (fun c => !(delims.contains c)),
      (s1.dropWhile (fun c => !(delims.contains c))).drop 1)

/-- Processing of one data line by `import_csv`: tokenize the first four
comma-separated fields as `date`, `type` (`atoi`), `amount` (`atof`),
`category`, with the rest of the line as the note; lines with fewer fields
or an invalid date are skipped; the category is resolved by
case-insensitive name match and auto-created otherwise; the transaction is
appended under a fresh id.  The amount is not validated. -/
def importLine (s : State) (line : List Nat) : State :=
  match strtokStep [44] line with
  | none => s
  | some (tok1, r1) =>
    match strtokStep [44] r1 with
    | none => s
    | some (tok2, r2) =>
      match strtokStep [44] r2 with
      | none => s
      | some (tok3, r3) =>
        match strtokStep [44] r3 with
        | none => s
        | some (tok4, r4) =>
          let note :=
            match strtokStep [10] r4 with
            | some (tok5, _) => tok5.take 255
            | none => []
          let date := (tok1.take 10).takeWhile (fun c => !(c == 13 || c == 10))
          let ty := atoiI tok2
          let amount := atofQ tok3
          let category := tok4.take 63
          if parse_date date = false then s
          else
            match s.cats.find? (fun c => strcaseEq c.name category) with
            | some c =>
              { s with
                txns := s.txns ++
                  [⟨s.txnNext, date.take 10, amount, c.id,
                    (if ty = 1 then TxnType.Income else TxnType.Expense), note.take 255⟩]
                txnNext := s.txnNext + 1 }
            | none =>
              { s with
                cats := s.cats ++ [⟨s.catNext, category⟩]
                catNext := s.catNext + 1
                txns := s.txns ++
                  [⟨s.txnNext, date.take 10, amount, s.catNext,
                    (if ty = 1 then TxnType.Income else TxnType.Expense), note.take 255⟩]
                txnNext := s.txnNext + 1 }

/-- `import_csv`: skip the header line, then process every following line. -/
def import_csv (lines : List (List Nat)) (s : State) : State :=
  (lines.drop 1).foldl importLine s

/-! ## Persistence codec

Each store is persisted as a flat sequence of fixed-size records.  A record
is serialized field by field: 4-byte little-endian integers for the `int`
fields, NUL-padded fixed-width buffers for the strings, and an 8-byte
injective image for the amount (see the header comment).  The semantic
record sizes are Category 68, Transaction 287, BudgetEntry 20 bytes. -/

/-- 4-byte little-endian image of an unsigned 32-bit value. -/
def enc32 (n : Nat) : List Nat :=
  [n % 256, n / 256 % 256, n / 65536 % 256, n / 16777216 % 256]

/-- Read back a 4-byte little-endian value from the head of a buffer. -/
def dec32 (l : List Nat) : Nat :=
  l.getD 0 0 + 256 * l.getD 1 0 + 65536 * l.getD 2 0 + 16777216 * l.getD 3 0

/-- 4-byte two's-complement image of a signed 32-bit value. -/
def encS32 (i : Int) : List Nat := enc32 (i % 4294967296).toNat

/-- Read back a signed 32-bit value. -/
def sdec32 (l : List Nat) : Int :=
  let n := dec32 l
  if n < 2147483648 then (n : Int) else (n : Int) - 4294967296

/-- Fixed-width `char[w]` buffer holding a string: at most `w - 1` content
bytes (the `strncpy` bound) followed by NUL padding. -/
def encStr (w : Nat) (s : List Nat) : List Nat :=
  s.take (w - 1) ++ List.replicate (w - min s.length (w - 1)) 0

/-- Content of a NUL-terminated buffer: the bytes before the first NUL. -/
def decStr (l : List Nat) : List Nat := l.takeWhile (fun b => !(b == 0))

/-- 8-byte image of an amount: numerator then denominator. -/
def encAmt (q : ℚ) : List Nat := encS32 q.num ++ enc32 q.den

/-- Read back an amount. -/
def decAmt (l : List Nat) : ℚ := (sdec32 l : ℚ) / (dec32 (l.drop 4) : ℚ)

/-- Serialized `Category` record (68 bytes). -/
def encCat (c : Category) : List Nat := enc32 c.id ++ encStr 64 c.name

/-- Decode a `Category` record. -/
def decCat (l : List Nat) : Category := ⟨dec32 l, decStr (l.drop 4)⟩

/-- Serialized `Transaction` record (287 bytes): id, date, amount,
category id, type code, note — the field set and order of the C struct. -/
def encTxn (t : Transaction) : List Nat :=
  enc32 t.id ++ (encStr 11 t.date ++ (encAmt t.amount ++
    (enc32 t.category_id ++ (enc32 (typeCode t.type) ++ encStr 256 t.note))))

/-- Decode a `Transaction` record. -/
def decTxn (l : List Nat) : Transaction :=
  { id := dec32 l
    date := decStr ((l.drop 4).take 11)
    amount := decAmt (l.drop 15)
    category_id := dec32 (l.drop 23)
    type := if dec32 (l.drop 27) = 1 then TxnType.Income else TxnType.Expense
    note := decStr (l.drop 31) }

/-- Serialized `BudgetEntry` record (20 bytes). -/
def encBud (b : BudgetEntry) : List Nat :=
  enc32 b.category_id ++ (enc32 b.year ++ (enc32 b.month ++ encAmt b.amount))

/-- Decode a `BudgetEntry` record. -/
def decBud (l : List Nat) : BudgetEntry :=
  { category_id := dec32 l
    year := dec32 (l.drop 4)
    month := dec32 (l.drop 8)
    amount := decAmt (l.drop 12) }

/-- Concatenated record images of a whole store. -/
def serializeRecs (enc : α → List Nat) : List α → List Nat
  | [] => []
  | x :: xs => enc x ++ serializeRecs enc xs

/-- `obfuscate_buffer`: XOR every byte with the key, a no-op when the
feature is off or the key is zero. -/
def obfuscate_buffer (enabled : Bool) (key : Nat) (l : List Nat) : List Nat :=
  if enabled = false ∨ key = 0 then l else l.map (fun b => b ^^^ key)

/-- The first `n` fixed-size records of a byte buffer. -/
def decodeRecords (sz : Nat) (dec : List Nat → α) : Nat → List Nat → List α
  | 0, _ => []
  | n + 1, bytes => dec (bytes.take sz) :: decodeRecords sz dec n (bytes.drop sz)

/-- The three data files; `none` is an absent file. -/
structure FS where
  catFile : Option (List Nat)
  tranFile : Option (List Nat)
  budFile : Option (List Nat)
deriving DecidableEq, Repr

/-- The file system before the program ever saved: no data files. -/
def fs0 : FS := ⟨none, none, none⟩

/-- `save_binary_file`: serialize the records and apply the byte
transform. -/
def save_binary_file (enabled : Bool) (key : Nat) (enc : α → List Nat)
    (recs : List α) : List Nat :=
  obfuscate_buffer enabled key (serializeRecs enc recs)

/-- `save_all`: write each non-empty store to its file; an empty store's
file is left as it was (the `if (size)` guards in the source). -/
def save_all (enabled : Bool) (key : Nat) (s : State) (fs : FS) : FS :=
  { catFile :=
      if s.cats = [] then fs.catFile
      else some (save_binary_file enabled key encCat s.cats)
    tranFile :=
      if s.txns = [] then fs.tranFile
      else some (save_binary_file enabled key encTxn s.txns)
    budFile :=
      if s.budgets = [] then fs.budFile
      else some (save_binary_file enabled key encBud s.budgets) }

/-- `load_binary_file`: an absent or empty file yields nothing; otherwise
undo the byte transform and decode `min (size / recordSize) maxCount`
records, silently discarding a trailing partial record and any whole
records beyond `maxCount`. -/
def load_binary_file (enabled : Bool) (key : Nat) (sz : Nat) (dec : List Nat → α)
    (maxCount : Nat) (file : Option (List Nat)) : List α :=
  match file with
  | none => []
  | some bytes =>
    if bytes.length = 0 then []
    else
      let buf := obfuscate_buffer enabled key bytes
      decodeRecords sz dec (min (buf.length / sz) maxCount) buf

/-- The transaction branch of `load_all`, which reads the whole file with no
record cap (`countt = filesize / sizeof(Transaction)`). -/
def load_txn_file (enabled : Bool) (key : Nat) (file : Option (List Nat)) :
    List Transaction :=
  match file with
  | none => []
  | some bytes =>
    if bytes.length = 0 then []
    else
      let buf := obfuscate_buffer enabled key bytes
      decodeRecords 287 decTxn (buf.length / 287) buf

/-- Seed of a `next_id` counter: one more than the maximum id on record
(1 when the store came back empty, matching the initial globals). -/
def nextIdFrom (ids : List Nat) : Nat := ids.foldl max 0 + 1

/-- `load_all`: hydrate the three stores from the files.  Categories and
budgets are read through 1024-record stack buffers; transactions are read
without a cap. -/
def load_all (enabled : Bool) (key : Nat) (fs : FS) : State :=
  let cats := load_binary_file enabled key 68 decCat 1024 fs.catFile
  let txns := load_txn_file enabled key fs.tranFile
  let buds := load_binary_file enabled key 20 decBud 1024 fs.budFile
  { cats := cats
    catNext := nextIdFrom (cats.map Category.id)
    txns := txns
    txnNext := nextIdFrom (txns.map Transaction.id)
    budgets := buds }

/-! ## Validity of records with respect to the fixed-width layout

These are the representation bounds the C types impose by construction
(`int` fields are 32-bit, the string buffers are fixed `char` arrays
holding NUL-free content, the 8-byte amount image carries numerator and
denominator): the embedding states them explicitly because `Nat`, `ℚ` and
`List` are unbounded. -/

/-- A string that fits a `char[w + 1]` buffer: at most `w` content bytes,
none of them NUL. -/
def fitsStr (w : Nat) (s : List Nat) : Prop := s.length ≤ w ∧ ∀ b ∈ s, b ≠ 0

instance (w : Nat) (s : List Nat) : Decidable (fitsStr w s) := by
  unfold fitsStr; infer_instance

/-- Representation bounds of a `Category` record. -/
def ValidCat (c : Category) : Prop := c.id < 4294967296 ∧ fitsStr 63 c.name

/-- Representation bounds of a `Transaction` record. -/
def ValidTxn (t : Transaction) : Prop :=
  t.id < 4294967296 ∧ fitsStr 10 t.date ∧ t.category_id < 4294967296 ∧
    t.amount.num.natAbs < 2147483648 ∧ t.amount.den < 4294967296 ∧
    fitsStr 255 t.note

/-- Representation bounds of a `BudgetEntry` record. -/
def ValidBud (b : BudgetEntry) : Prop :=
  b.category_id < 4294967296 ∧ b.year < 4294967296 ∧ b.month < 4294967296 ∧
    b.amount.num.natAbs < 2147483648 ∧ b.amount.den < 4294967296

instance (c : Category) : Decidable (ValidCat c) := by unfold ValidCat; infer_instance

instance (t : Transaction) : Decidable (ValidTxn t) := by unfold ValidTxn; infer_instance

instance (b : BudgetEntry) : Decidable (ValidBud b) := by unfold ValidBud; infer_instance

/-! ## Concrete stores used by witnesses and counterexamples -/

/-- Transactions exercising the December month-wrap of C1: an in-month
expense and income of category 1, a next-January transaction, and an
in-month transaction of another category. -/
def c1Txns : List Transaction :=
  [⟨1, str "2024-12-05", 100, 1, TxnType.Expense, []⟩,
   ⟨2, str "2024-12-31", 40, 1, TxnType.Income, []⟩,
   ⟨3, str "2025-01-01", 7, 1, TxnType.Expense, []⟩,
   ⟨4, str "2024-12-10", 9, 2, TxnType.Expense, []⟩]

/-! ## Lemmas: the monthly aggregation loop -/

theorem sumAmounts_nil : sumAmounts [] = 0 := rfl

theorem sumAmounts_cons (t : Transaction) (l : List Transaction) :
    sumAmounts (t :: l) = t.amount + sumAmounts l := by
  simp [sumAmounts]

/-- The aggregation loop, run from any accumulator, adds the filtered
Expense sum and subtracts the filtered Income sum. -/
theorem tfcm_foldl (cid : Nat) (smin smax : List Nat) (l : List Transaction) :
    ∀ a : ℚ, l.foldl (tfcmStep cid smin smax) a =
      a + sumAmounts (l.filter (spec_month_match cid smin smax TxnType.Expense)) -
        sumAmounts (l.filter (spec_month_match cid smin smax TxnType.Income)) := by
  induction l with
  | nil => intro a; simp [sumAmounts]
  | cons t ts ih =>
    intro a
    rw [List.foldl_cons, ih]
    by_cases h1 : t.category_id = cid
    · by_cases h2 : compare_dates t.date smin = Ordering.lt
      · simp [tfcmStep, spec_month_match, h1, h2, List.filter_cons]
      · by_cases h3 : compare_dates t.date smax = Ordering.lt
        · cases h4 : t.type
          · simp [tfcmStep, spec_month_match, h1, h2, h3, h4, List.filter_cons,
              sumAmounts_cons]
            ring
          · simp [tfcmStep, spec_month_match, h1, h2, h3, h4, List.filter_cons,
              sumAmounts_cons]
            ring
        · simp [tfcmStep, spec_month_match, h1, h2, h3, List.filter_cons]
    · simp [tfcmStep, spec_month_match, h1, List.filter_cons]

/-- C1: for every store state, category id `c`, year `y ≤ 9998` and month
`m` in 1..12, `total_for_category_month` equals the sum of amounts of the
Expense transactions minus the sum of amounts of the Income transactions
over exactly the transactions of category `c` whose date `d` satisfies
`first-day-of-(y,m) ≤ d < first-day-of-the-next-month`, the next month of
`(y, 12)` being `(y+1, 1)`; transactions of other categories or with dates
outside the half-open interval contribute nothing. -/
theorem claim_C1_monthly_category_net (txns : List Transaction) (c y m : Nat)
    (_h1 : 1 ≤ m) (_h2 : m ≤ 12) :
    total_for_category_month txns c y m =
      sumAmounts (txns.filter (spec_month_match c (monthStartStr y m)
        (monthStartStr (if m = 12 then y + 1 else y) (if m = 12 then 1 else m + 1))
        TxnType.Expense)) -
      sumAmounts (txns.filter (spec_month_match c (monthStartStr y m)
        (monthStartStr (if m = 12 then y + 1 else y) (if m = 12 then 1 else m + 1))
        TxnType.Income)) := by
  unfold total_for_category_month
  rw [tfcm_foldl]
  ring

/-- Witness for C1 at the December month-wrap: concrete store, `m = 12`. -/
theorem claim_C1_witness :
    ((1 : Nat) ≤ 12 ∧ (12 : Nat) ≤ 12) ∧
    total_for_category_month c1Txns 1 2024 12 =
      sumAmounts (c1Txns.filter (spec_month_match 1 (monthStartStr 2024 12)
        (monthStartStr (if 12 = 12 then 2024 + 1 else 2024) (if 12 = 12 then 1 else 12 + 1))
        TxnType.Expense)) -
      sumAmounts (c1Txns.filter (spec_month_match 1 (monthStartStr 2024 12)
        (monthStartStr (if 12 = 12 then 2024 + 1 else 2024) (if 12 = 12 then 1 else 12 + 1))
        TxnType.Income)) :=
  ⟨by decide, claim_C1_monthly_category_net c1Txns 1 2024 12 (by decide) (by decide)⟩

/-- C5 (code evaluated at the failing input): `parse_date` accepts the
10-character string `2024-1-15x`, which is not of the fixed zero-padded
`YYYY-MM-DD` form, while also accepting the canonical `2024-02-01`; on this
accepted pair lexicographic comparison (`.gt`) disagrees with chronological
order (January 15 before February 1), so the acceptance predicate is
strictly larger than the claimed form and the claimed ordering equivalence
fails on accepted dates. -/
theorem claim_C5_parse_date_accepts_noncanonical :
    parse_date (str "2024-1-15x") = true ∧
    canonicalDateB (str "2024-1-15x") = false ∧
    parse_date (str "2024-02-01") = true ∧
    canonicalDateB (str "2024-02-01") = true ∧
    compare_dates (str "2024-1-15x") (str "2024-02-01") = Ordering.gt := by
  decide

/-! ## Lemmas: index search loops -/

theorem find_txn_index_lt (txns : List Transaction) (id i : Nat)
    (h : find_txn_index_by_id txns id = some i) : i < txns.length := by
  induction txns generalizing i with
  | nil => simp [find_txn_index_by_id] at h
  | cons t ts ih =>
    rw [find_txn_index_by_id] at h
    split at h
    · cases h
      simp
    · rw [Option.map_eq_some'] at h
      obtain ⟨j, hj, rfl⟩ := h
      have := ih j hj
      simp only [List.length_cons]
      omega

theorem find_cat_index_lt (cats : List Category) (id i : Nat)
    (h : find_category_index_by_id cats id = some i) : i < cats.length := by
  induction cats generalizing i with
  | nil => simp [find_category_index_by_id] at h
  | cons c cs ih =>
    rw [find_category_index_by_id] at h
    split at h
    · cases h
      simp
    · rw [Option.map_eq_some'] at h
      obtain ⟨j, hj, rfl⟩ := h
      have := ih j hj
      simp only [List.length_cons]
      omega

theorem find_cat_index_id (cats : List Category) (id i : Nat)
    (h : find_category_index_by_id cats id = some i) :
    (cats.getD i default).id = id := by
  induction cats generalizing i with
  | nil => simp [find_category_index_by_id] at h
  | cons c cs ih =>
    rw [find_category_index_by_id] at h
    split at h
    · cases h
      simpa using by assumption
    · rw [Option.map_eq_some'] at h
      obtain ⟨j, hj, rfl⟩ := h
      simpa using ih j hj

theorem find_cat_index_of_found (cats : List Category) (id : Nat)
    (h : find_category_by_id cats id = true) :
    ∃ i, find_category_index_by_id cats id = some i := by
  induction cats with
  | nil => simp [find_category_by_id] at h
  | cons c cs ih =>
    by_cases hc : c.id = id
    · exact ⟨0, by simp [find_category_index_by_id, hc]⟩
    · have hcs : find_category_by_id cs id = true := by
        simpa [find_category_by_id, hc] using h
      obtain ⟨j, hj⟩ := ih hcs
      exact ⟨j + 1, by simp [find_category_index_by_id, hc, hj]⟩

/-! ## C9: edits with blank or invalid inputs -/

/-- A store holding one Income transaction, used to exhibit the blank-edit
type reset. -/
def c9State : State :=
  ⟨[⟨1, str "Cash"⟩], 2, [⟨1, str "2024-03-15", 5, 1, TxnType.Income, []⟩], 2, []⟩

/-- The all-blank edit input. -/
def blankEdit : EditInput := ⟨[], [], [], [], []⟩

/-- C9 counterexample: editing the Income transaction of `c9State` with
every field input blank does not leave the transaction unchanged — its type
is overwritten to Expense (`read_int` turns the blank line into 0, which
passes the `tp == 0 || tp == 1` check). -/
theorem claim_C9_counterexample :
    (edit_transaction 1 blankEdit c9State).txns =
      [⟨1, str "2024-03-15", 5, 1, TxnType.Expense, []⟩] ∧
    edit_transaction 1 blankEdit c9State ≠ c9State := by
  with_unfolding_all decide

/-- C9 as amended: an edit whose field inputs are all blank or fail their
validations (date blank or unparsable, type line reading as 0 via `atoi` —
which includes the blank line —, amount not positive, category id zero or
unresolvable, note blank) leaves date, amount, category id and note
unchanged but sets the type to Expense; the transaction is therefore
completely unchanged exactly when it already was an Expense. -/
theorem claim_C9_blank_edit (s : State) (tid : Nat) (inp : EditInput) (i : Nat)
    (hfind : find_txn_index_by_id s.txns tid = some i)
    (hdate : inp.dateInp = [] ∨ parse_date (inp.dateInp.take 10) = false)
    (htype : atoiI inp.typeInp = 0)
    (hamt : ¬ 0 < atofQ inp.amountInp)
    (hcid : atoiI inp.catIdInp = 0 ∨ findCatIdInt s.cats (atoiI inp.catIdInp) = false)
    (hnote : inp.noteInp = []) :
    edit_transaction tid inp s =
      { s with
        txns := s.txns.set i ({ s.txns.getD i default with type := TxnType.Expense }) } := by
  rw [edit_transaction, hfind]
  have happ : applyEdit inp s.cats (s.txns.getD i default) =
      { s.txns.getD i default with type := TxnType.Expense } := by
    unfold applyEdit
    have hd : ¬ (inp.dateInp ≠ [] ∧ parse_date (inp.dateInp.take 10) = true) := by
      rcases hdate with h | h
      · simp [h]
      · simp [h]
    have hc : ¬ (atoiI inp.catIdInp ≠ 0 ∧ findCatIdInt s.cats (atoiI inp.catIdInp) = true) := by
      rcases hcid with h | h
      · simp [h]
      · simp [h]
    simp [hd, htype, hamt, hc, hnote]
  simp only [happ]

/-- Witness for C9 at a concrete Expense transaction and all-blank input. -/
def c9wState : State :=
  ⟨[⟨1, str "Cash"⟩], 2, [⟨1, str "2024-03-15", 5, 1, TxnType.Expense, []⟩], 2, []⟩

theorem claim_C9_witness :
    (find_txn_index_by_id c9wState.txns 1 = some 0 ∧
      (blankEdit.dateInp = [] ∨ parse_date (blankEdit.dateInp.take 10) = false) ∧
      atoiI blankEdit.typeInp = 0 ∧ ¬ 0 < atofQ blankEdit.amountInp ∧
      (atoiI blankEdit.catIdInp = 0 ∨
        findCatIdInt c9wState.cats (atoiI blankEdit.catIdInp) = false) ∧
      blankEdit.noteInp = []) ∧
    edit_transaction 1 blankEdit c9wState =
      { c9wState with
        txns :=
          c9wState.txns.set 0 ({ c9wState.txns.getD 0 default with type := TxnType.Expense }) } :=
  ⟨⟨by decide, by decide, by decide, by with_unfolding_all decide, by decide, by decide⟩,
    claim_C9_blank_edit c9wState 1 blankEdit 0 (by decide) (by decide) (by decide)
      (by with_unfolding_all decide) (by decide) (by decide)⟩

/-! ## C4: failed adds -/

/-- Add input whose date line is non-blank and unparsable: the add fails at
the very first validation. -/
def c4wInp : AddTxnInput := ⟨str "2024-05-05", str "nope", [], [], [], [], []⟩

/-- A store with one category (so the category-creation sub-flow is not
entered) and no transactions. -/
def c4wState : State := ⟨[⟨1, str "Misc"⟩], 2, [], 1, []⟩

/-- Add input that passes date and amount validation, creates a category
through the sub-flow (the store starts with none), and then fails on an
unresolvable category id. -/
def c4cInp : AddTxnInput := ⟨str "2024-05-05", [], [], str "5", str "Food", str "7", []⟩

/-- C4 counterexample: a failed add is not free of state changes — starting
from the freshly initialised store, the add below fails (unresolvable
category id 7) yet leaves the transaction id counter advanced from 1 to 2
and a category created by the interactive sub-flow. -/
theorem claim_C4_counterexample :
    (add_transaction c4cInp initState).2 = false ∧
    add_transaction c4cInp initState ≠ (initState, false) ∧
    (add_transaction c4cInp initState).1.txnNext = 2 ∧
    (add_transaction c4cInp initState).1.cats = [⟨1, str "Food"⟩] := by
  with_unfolding_all decide

set_option maxHeartbeats 1000000 in
/-- C4 as amended: a failed add appends no transaction and leaves the
budget store untouched, but the transaction id counter is advanced by one
(it is incremented before any validation); when at least one category
exists — so the interactive category-creation sub-flow is not entered — the
category store and its counter are also unchanged. -/
theorem claim_C4_failed_add_frame (inp : AddTxnInput) (s : State)
    (hfail : (add_transaction inp s).2 = false) :
    (add_transaction inp s).1.txns = s.txns ∧
    (add_transaction inp s).1.txnNext = s.txnNext + 1 ∧
    (add_transaction inp s).1.budgets = s.budgets ∧
    (s.cats ≠ [] →
      (add_transaction inp s).1.cats = s.cats ∧
      (add_transaction inp s).1.catNext = s.catNext) := by
  dsimp only [add_transaction, add_category] at hfail ⊢
  split_ifs at hfail ⊢ <;> simp_all

/-- Witness for C4: the concrete failed add above satisfies the frame. -/
theorem claim_C4_witness :
    (add_transaction c4wInp c4wState).2 = false ∧
    ((add_transaction c4wInp c4wState).1.txns = c4wState.txns ∧
      (add_transaction c4wInp c4wState).1.txnNext = c4wState.txnNext + 1 ∧
      (add_transaction c4wInp c4wState).1.budgets = c4wState.budgets ∧
      (c4wState.cats ≠ [] →
        (add_transaction c4wInp c4wState).1.cats = c4wState.cats ∧
        (add_transaction c4wInp c4wState).1.catNext = c4wState.catNext)) :=
  ⟨by decide, claim_C4_failed_add_frame c4wInp c4wState (by decide)⟩

/-! ## C8: amount positivity at creation -/

/-- The CSV file whose single data line carries amount `0`. -/
def c8BadCsv : List (List Nat) := [csvHeader, str "2024-03-15,0,0,Food,x"]

/-- C8 counterexample: `import_csv` performs no amount validation — the
line `2024-03-15,0,0,Food,x` is imported into the fresh store as a
transaction created with amount 0, so not every transaction has a strictly
positive amount at the moment of creation. -/
theorem claim_C8_counterexample :
    (import_csv c8BadCsv initState).txns =
      [⟨1, str "2024-03-15", 0, 1, TxnType.Expense, str "x"⟩] ∧
    ¬ ∀ t ∈ (import_csv c8BadCsv initState).txns, 0 < t.amount := by
  with_unfolding_all decide

set_option maxHeartbeats 1000000 in
/-- C8 as amended: every transaction present after an interactive add
either was already in the store or was created with a strictly positive
amount (the `amount <= 0` check guards the only append); the CSV-import
creation path checks nothing, per the counterexample. -/
theorem claim_C8_add_amount_positive (inp : AddTxnInput) (s : State) (t : Transaction)
    (ht : t ∈ (add_transaction inp s).1.txns) :
    t ∈ s.txns ∨ 0 < t.amount := by
  dsimp only [add_transaction, add_category] at ht
  split_ifs at ht <;> simp_all [List.mem_append] <;> rcases ht with h | h <;> simp_all

/-- Store and input for the C8 witness: a successful add of amount 5. -/
def c8wState : State := ⟨[⟨1, str "Misc"⟩], 2, [], 1, []⟩

def c8wInp : AddTxnInput := ⟨str "2024-05-05", str "2024-01-02", [], str "5", [], str "1", []⟩

theorem claim_C8_witness :
    (⟨1, str "2024-01-02", 5, 1, TxnType.Expense, []⟩ : Transaction) ∈
      (add_transaction c8wInp c8wState).1.txns ∧
    ((⟨1, str "2024-01-02", 5, 1, TxnType.Expense, []⟩ : Transaction) ∈ c8wState.txns ∨
      0 < (⟨1, str "2024-01-02", 5, 1, TxnType.Expense, []⟩ : Transaction).amount) :=
  ⟨by with_unfolding_all decide,
    claim_C8_add_amount_positive c8wInp c8wState _ (by with_unfolding_all decide)⟩

/-! ## C7: budget upsert -/

theorem budKey_mk (cid y m : Nat) (a : ℚ) : budKey cid y m ⟨cid, y, m, a⟩ = true := by
  simp [budKey]

theorem budKey_fields (cid y m : Nat) (b : BudgetEntry) (hb : budKey cid y m b = true) :
    b.category_id = cid ∧ b.year = y ∧ b.month = m := by
  have := hb
  simp [budKey] at this
  exact ⟨this.1.1, this.1.2, this.2⟩

theorem setBudgetList_twice (cid y m : Nat) (a1 a2 : ℚ) (l : List BudgetEntry)
    (h : l.countP (budKey cid y m) ≤ 1) :
    (setBudgetList cid y m a2 (setBudgetList cid y m a1 l)).filter (budKey cid y m) =
      [⟨cid, y, m, a2⟩] ∧
    (setBudgetList cid y m a2 (setBudgetList cid y m a1 l)).filter
        (fun b => !(budKey cid y m b)) =
      l.filter (fun b => !(budKey cid y m b)) := by
  induction l with
  | nil => constructor <;> simp [setBudgetList, budKey]
  | cons b bs ih =>
    by_cases hb : budKey cid y m b = true
    · have hcount : bs.countP (budKey cid y m) = 0 := by
        rw [List.countP_cons_of_pos _ _ hb] at h
        omega
      have hnil : bs.filter (budKey cid y m) = [] := by
        rw [List.filter_eq_nil_iff]
        intro x hx
        have := List.countP_eq_zero.mp hcount x hx
        simpa using this
      obtain ⟨hcid, hy, hm⟩ := budKey_fields cid y m b hb
      obtain ⟨c0, y0, m0, a0⟩ := b
      simp only at hcid hy hm
      subst hcid hy hm
      constructor
      · simp [setBudgetList, budKey_mk, List.filter_cons, hnil]
      · simp [setBudgetList, budKey_mk, List.filter_cons, hb]
    · have hb2 : budKey cid y m b = false := by simpa using hb
      have hcount : bs.countP (budKey cid y m) ≤ 1 := by
        rw [List.countP_cons_of_neg _ _ hb] at h
        exact h
      obtain ⟨ih1, ih2⟩ := ih hcount
      constructor
      · simp [setBudgetList, hb2, List.filter_cons, ih1]
      · simp [setBudgetList, hb2, List.filter_cons, ih2]

/-- C7: starting from a budget store with at most one entry for the
`(category_id, year, month)` triple, two consecutive `set_budget` calls for
that triple (with an existing category, a month in 1..12 and non-negative
amounts) leave exactly one entry for the triple, holding the latest amount,
and leave every other budget entry unchanged — the second set overwrites in
place rather than appending. -/
theorem claim_C7_budget_upsert (s : State) (cid y m : Nat) (a1 a2 : ℚ)
    (hcat : find_category_by_id s.cats cid = true)
    (hm1 : 1 ≤ m) (hm2 : m ≤ 12) (ha1 : 0 ≤ a1) (ha2 : 0 ≤ a2)
    (hkey : s.budgets.countP (budKey cid y m) ≤ 1) :
    (set_budget cid y m a2 (set_budget cid y m a1 s)).budgets.filter (budKey cid y m) =
      [⟨cid, y, m, a2⟩] ∧
    (set_budget cid y m a2 (set_budget cid y m a1 s)).budgets.filter
        (fun b => !(budKey cid y m b)) =
      s.budgets.filter (fun b => !(budKey cid y m b)) := by
  have hc1 : ¬ (find_category_by_id s.cats cid = false) := by simp [hcat]
  have hc2 : ¬ (m < 1 ∨ 12 < m) := by omega
  have hc3 : ¬ (a1 < 0) := not_lt.mpr ha1
  have hc4 : ¬ (a2 < 0) := not_lt.mpr ha2
  have h1 : set_budget cid y m a1 s =
      { s with budgets := setBudgetList cid y m a1 s.budgets } := by
    unfold set_budget
    rw [if_neg hc1, if_neg hc2, if_neg hc3]
  have h2 : set_budget cid y m a2 (set_budget cid y m a1 s) =
      { s with budgets := setBudgetList cid y m a2 (setBudgetList cid y m a1 s.budgets) } := by
    rw [h1]
    unfold set_budget
    dsimp only
    rw [if_neg hc1, if_neg hc2, if_neg hc4]
  rw [h2]
  exact setBudgetList_twice cid y m a1 a2 s.budgets hkey

/-- One category and one budget entry of a different month, for the C7
witness. -/
def c7wState : State := ⟨[⟨1, str "Misc"⟩], 2, [], 1, [⟨1, 2024, 3, 7⟩]⟩

/-- Witness for C7: set the (1, 2024, 4) budget to 10 then 20. -/
theorem claim_C7_witness :
    (find_category_by_id c7wState.cats 1 = true ∧ (1 : Nat) ≤ 4 ∧ (4 : Nat) ≤ 12 ∧
      (0 : ℚ) ≤ 10 ∧ (0 : ℚ) ≤ 20 ∧ c7wState.budgets.countP (budKey 1 2024 4) ≤ 1) ∧
    ((set_budget 1 2024 4 20 (set_budget 1 2024 4 10 c7wState)).budgets.filter
        (budKey 1 2024 4) = [⟨1, 2024, 4, 20⟩] ∧
      (set_budget 1 2024 4 20 (set_budget 1 2024 4 10 c7wState)).budgets.filter
          (fun b => !(budKey 1 2024 4 b)) =
        c7wState.budgets.filter (fun b => !(budKey 1 2024 4 b))) :=
  ⟨⟨by decide, by decide, by decide, by decide, by decide, by decide⟩,
    claim_C7_budget_upsert c7wState 1 2024 4 10 20 (by decide) (by decide) (by decide)
      (by decide) (by decide) (by decide)⟩

/-! ## C6: category removal -/

theorem nodup_id_index_eq (l : List Category) (hnd : (l.map Category.id).Nodup)
    {i j : Nat} (hi : i < l.length) (hj : j < l.length)
    (h : (l[i]).id = (l[j]).id) : i = j := by
  have hmi : i < (l.map Category.id).length := by simpa using hi
  have hmj : j < (l.map Category.id).length := by simpa using hj
  have : (l.map Category.id)[i] = (l.map Category.id)[j] := by
    simpa using h
  exact (hnd.getElem_inj_iff).mp this

theorem swapRemove_no_id (l : List Category) (i cid : Nat)
    (hnd : (l.map Category.id).Nodup) (hi : i < l.length)
    (hid : (l[i]).id = cid) :
    ∀ x ∈ swapRemove l i, x.id ≠ cid := by
  intro x hx hxid
  unfold swapRemove at hx
  rw [List.mem_iff_getElem] at hx
  obtain ⟨j, hj, hxj⟩ := hx
  have hlen : (l.set i (l.getD (l.length - 1) default)).dropLast.length = l.length - 1 := by
    simp
  have hj2 : j < l.length - 1 := by rw [hlen] at hj; exact hj
  have hjs : j < (l.set i (l.getD (l.length - 1) default)).length := by simp; omega
  have hjl : j < l.length := by omega
  have hgd : (l.set i (l.getD (l.length - 1) default)).dropLast[j] =
      (l.set i (l.getD (l.length - 1) default))[j] :=
    List.getElem_dropLast ..
  rw [hgd, List.getElem_set] at hxj
  have hlast : l.getD (l.length - 1) default = l[l.length - 1] :=
    List.getD_eq_getElem l default (by omega)
  by_cases hij : i = j
  · rw [if_pos hij] at hxj
    rw [hlast] at hxj
    have : (l[l.length - 1]).id = (l[i]).id := by rw [hxj, hxid, hid]
    have := nodup_id_index_eq l hnd (by omega) hi this
    omega
  · rw [if_neg hij] at hxj
    have : (l[j]).id = (l[i]).id := by rw [hxj, hxid, hid]
    have := nodup_id_index_eq l hnd hjl hi this
    omega

theorem find_category_false_of_no_id (cats : List Category) (cid : Nat)
    (h : ∀ x ∈ cats, x.id ≠ cid) : find_category_by_id cats cid = false := by
  rw [find_category_by_id]
  rw [List.any_eq_false]
  intro c hc
  simpa using h c hc

/-- C6: when category ids are pairwise distinct (as the id allocator
guarantees) and the id exists, removal of a category referenced by at least
one transaction fails with the referential-integrity outcome and changes
nothing, while removal of an unreferenced category succeeds and a
subsequent lookup of that id reports it absent. -/
theorem claim_C6_remove_category (s : State) (cid : Nat)
    (hnd : (s.cats.map Category.id).Nodup)
    (hex : find_category_by_id s.cats cid = true) :
    (s.txns.any (fun t => t.category_id == cid) = true →
      remove_category cid s = (s, RemoveOutcome.referenced)) ∧
    (s.txns.any (fun t => t.category_id == cid) = false →
      (remove_category cid s).2 = RemoveOutcome.deleted ∧
      find_category_by_id (remove_category cid s).1.cats cid = false) := by
  obtain ⟨i, hfi⟩ := find_cat_index_of_found s.cats cid hex
  have hlt : i < s.cats.length := find_cat_index_lt s.cats cid i hfi
  have hid : (s.cats[i]).id = cid := by
    have := find_cat_index_id s.cats cid i hfi
    rwa [List.getD_eq_getElem s.cats default hlt] at this
  constructor
  · intro href
    rw [remove_category, hfi]
    simp [href]
  · intro href
    rw [remove_category, hfi]
    dsimp only
    rw [if_neg (by simp [href])]
    exact ⟨rfl, find_category_false_of_no_id _ cid
      (swapRemove_no_id s.cats i cid hnd hlt hid)⟩

/-- Two categories, the first referenced by a transaction, for the C6
witness. -/
def c6wState : State :=
  ⟨[⟨1, str "Food"⟩, ⟨2, str "Rent"⟩], 3,
    [⟨1, str "2024-01-01", 5, 1, TxnType.Expense, []⟩], 2, []⟩

/-- Witness for C6 at category id 2 of the concrete store. -/
theorem claim_C6_witness :
    ((c6wState.cats.map Category.id).Nodup ∧
      find_category_by_id c6wState.cats 2 = true) ∧
    ((c6wState.txns.any (fun t => t.category_id == 2) = true →
        remove_category 2 c6wState = (c6wState, RemoveOutcome.referenced)) ∧
      (c6wState.txns.any (fun t => t.category_id == 2) = false →
        (remove_category 2 c6wState).2 = RemoveOutcome.deleted ∧
        find_category_by_id (remove_category 2 c6wState).1.cats 2 = false)) :=
  ⟨⟨by decide, by decide⟩, claim_C6_remove_category c6wState 2 (by decide) (by decide)⟩

/-! ## Persistence round trip (C2, C10) -/

theorem take_append_of_length (l1 l2 : List Nat) (n : Nat) (h : l1.length = n) :
    (l1 ++ l2).take n = l1 := by
  subst h
  exact List.take_left ..

theorem drop_append_of_length (l1 l2 : List Nat) (n : Nat) (h : l1.length = n) :
    (l1 ++ l2).drop n = l2 := by
  subst h
  exact List.drop_left ..

theorem enc32_length (n : Nat) : (enc32 n).length = 4 := rfl

theorem encS32_length (i : Int) : (encS32 i).length = 4 := rfl

theorem encStr_length (w : Nat) (s : List Nat) (hw : 1 ≤ w) : (encStr w s).length = w := by
  simp [encStr]
  omega

theorem encAmt_length (q : ℚ) : (encAmt q).length = 8 := by
  simp [encAmt, encS32, enc32]

theorem encCat_length (c : Category) : (encCat c).length = 68 := by
  simp [encCat, enc32, encStr_length 64 c.name (by omega)]

theorem encTxn_length (t : Transaction) : (encTxn t).length = 287 := by
  simp [encTxn, enc32, encAmt_length, encStr_length 11 t.date (by omega),
    encStr_length 256 t.note (by omega)]

theorem encBud_length (b : BudgetEntry) : (encBud b).length = 20 := by
  simp [encBud, enc32, encAmt_length]

theorem dec32_enc32 (n : Nat) (r : List Nat) (h : n < 4294967296) :
    dec32 (enc32 n ++ r) = n := by
  simp [enc32, dec32]
  omega

theorem sdec32_encS32 (i : Int) (r : List Nat) (h : i.natAbs < 2147483648) :
    sdec32 (encS32 i ++ r) = i := by
  unfold sdec32 encS32
  rw [dec32_enc32 _ _ (by omega)]
  dsimp only
  split_ifs with hlt <;> omega

theorem takeWhile_nonzero (s t : List Nat) (hz : ∀ b ∈ s, b ≠ 0) :
    (s ++ 0 :: t).takeWhile (fun b => !(b == 0)) = s := by
  induction s with
  | nil => simp
  | cons a as ih =>
    have ha : a ≠ 0 := hz a (List.mem_cons_self a as)
    simp only [List.cons_append, List.takeWhile_cons]
    simp [ha, ih (fun b hb => hz b (List.mem_cons_of_mem a hb))]

theorem decStr_encStr (w : Nat) (s : List Nat) (hw : 1 ≤ w) (hlen : s.length ≤ w - 1)
    (hz : ∀ b ∈ s, b ≠ 0) : decStr (encStr w s) = s := by
  unfold encStr decStr
  rw [List.take_of_length_le (by omega)]
  rw [min_eq_left hlen]
  have hrep : w - s.length = (w - s.length - 1) + 1 := by omega
  rw [hrep, List.replicate_succ]
  exact takeWhile_nonzero s _ hz

theorem decAmt_encAmt (q : ℚ) (r : List Nat)
    (hn : q.num.natAbs < 2147483648) (hd : q.den < 4294967296) :
    decAmt (encAmt q ++ r) = q := by
  unfold decAmt encAmt
  rw [List.append_assoc]
  rw [sdec32_encS32 _ _ hn]
  rw [drop_append_of_length _ _ 4 (encS32_length q.num)]
  rw [dec32_enc32 _ _ hd]
  exact Rat.num_div_den q

theorem decCat_encCat (c : Category) (h : ValidCat c) : decCat (encCat c) = c := by
  obtain ⟨hid, hlen, hz⟩ := h
  unfold decCat encCat
  rw [dec32_enc32 _ _ hid]
  rw [drop_append_of_length _ _ 4 (enc32_length c.id)]
  rw [decStr_encStr 64 c.name (by omega) (by omega) hz]

theorem typeCode_lt (ty : TxnType) : typeCode ty < 4294967296 := by
  cases ty <;> decide

theorem decTxn_encTxn (t : Transaction) (h : ValidTxn t) : decTxn (encTxn t) = t := by
  obtain ⟨hid, ⟨hdl, hdz⟩, hcid, hnum, hden, hnl, hnz⟩ := h
  unfold decTxn encTxn
  have h4 : (enc32 t.id ++ (encStr 11 t.date ++ (encAmt t.amount ++
      (enc32 t.category_id ++ (enc32 (typeCode t.type) ++ encStr 256 t.note))))).drop 4 =
      encStr 11 t.date ++ (encAmt t.amount ++
        (enc32 t.category_id ++ (enc32 (typeCode t.type) ++ encStr 256 t.note))) :=
    drop_append_of_length _ _ 4 (enc32_length t.id)
  have h15 : (enc32 t.id ++ (encStr 11 t.date ++ (encAmt t.amount ++
      (enc32 t.category_id ++ (enc32 (typeCode t.type) ++ encStr 256 t.note))))).drop 15 =
      encAmt t.amount ++ (enc32 t.category_id ++ (enc32 (typeCode t.type) ++ encStr 256 t.note)) := by
    rw [show (15 : Nat) = 4 + 11 by rfl, ← List.drop_drop, h4]
    exact drop_append_of_length _ _ 11 (encStr_length 11 t.date (by omega))
  have h23 : (enc32 t.id ++ (encStr 11 t.date ++ (encAmt t.amount ++
      (enc32 t.category_id ++ (enc32 (typeCode t.type) ++ encStr 256 t.note))))).drop 23 =
      enc32 t.category_id ++ (enc32 (typeCode t.type) ++ encStr 256 t.note) := by
    rw [show (23 : Nat) = 15 + 8 by rfl, ← List.drop_drop, h15]
    exact drop_append_of_length _ _ 8 (encAmt_length t.amount)
  have h27 : (enc32 t.id ++ (encStr 11 t.date ++ (encAmt t.amount ++
      (enc32 t.category_id ++ (enc32 (typeCode t.type) ++ encStr 256 t.note))))).drop 27 =
      enc32 (typeCode t.type) ++ encStr 256 t.note := by
    rw [show (27 : Nat) = 23 + 4 by rfl, ← List.drop_drop, h23]
    exact drop_append_of_length _ _ 4 (enc32_length t.category_id)
  have h31 : (enc32 t.id ++ (encStr 11 t.date ++ (encAmt t.amount ++
      (enc32 t.category_id ++ (enc32 (typeCode t.type) ++ encStr 256 t.note))))).drop 31 =
      encStr 256 t.note := by
    rw [show (31 : Nat) = 27 + 4 by rfl, ← List.drop_drop, h27]
    exact drop_append_of_length _ _ 4 (enc32_length (typeCode t.type))
  rw [h4, h15, h23, h27, h31]
  rw [dec32_enc32 _ _ hid]
  rw [take_append_of_length _ _ 11 (encStr_length 11 t.date (by omega))]
  rw [decStr_encStr 11 t.date (by omega) (by omega) hdz]
  rw [decAmt_encAmt t.amount _ hnum hden]
  rw [dec32_enc32 _ _ hcid]
  rw [dec32_enc32 _ _ (typeCode_lt t.type)]
  rw [decStr_encStr 256 t.note (by omega) (by omega) hnz]
  cases ht : t.type
  · rw [if_neg (by decide), ← ht]
  · rw [if_pos (by decide), ← ht]

theorem decBud_encBud (b : BudgetEntry) (h : ValidBud b) : decBud (encBud b) = b := by
  obtain ⟨hcid, hy, hm, hnum, hden⟩ := h
  unfold decBud encBud
  have h4 : (enc32 b.category_id ++ (enc32 b.year ++ (enc32 b.month ++ encAmt b.amount))).drop 4 =
      enc32 b.year ++ (enc32 b.month ++ encAmt b.amount) :=
    drop_append_of_length _ _ 4 (enc32_length b.category_id)
  have h8 : (enc32 b.category_id ++ (enc32 b.year ++ (enc32 b.month ++ encAmt b.amount))).drop 8 =
      enc32 b.month ++ encAmt b.amount := by
    rw [show (8 : Nat) = 4 + 4 by rfl, ← List.drop_drop, h4]
    exact drop_append_of_length _ _ 4 (enc32_length b.year)
  have h12 : (enc32 b.category_id ++ (enc32 b.year ++ (enc32 b.month ++ encAmt b.amount))).drop 12 =
      encAmt b.amount := by
    rw [show (12 : Nat) = 8 + 4 by rfl, ← List.drop_drop, h8]
    exact drop_append_of_length _ _ 4 (enc32_length b.month)
  rw [h4, h8, h12]
  rw [dec32_enc32 _ _ hcid, dec32_enc32 _ _ hy, dec32_enc32 _ _ hm]
  have : decAmt (encAmt b.amount) = b.amount := by
    have := decAmt_encAmt b.amount [] hnum hden
    simpa using this
  rw [this]

theorem obf_obf (e : Bool) (k : Nat) (l : List Nat) :
    obfuscate_buffer e k (obfuscate_buffer e k l) = l := by
  unfold obfuscate_buffer
  split_ifs with h
  · rfl
  · rw [List.map_map]
    have : ((fun b => b ^^^ k) ∘ fun b => b ^^^ k) = id := by
      funext b
      simp only [Function.comp_apply, id_eq]
      rw [Nat.xor_assoc, Nat.xor_self, Nat.xor_zero]
    rw [this, List.map_id]

theorem obf_length (e : Bool) (k : Nat) (l : List Nat) :
    (obfuscate_buffer e k l).length = l.length := by
  unfold obfuscate_buffer
  split_ifs <;> simp

theorem serializeRecs_length {α : Type} (enc : α → List Nat) (sz : Nat) (l : List α)
    (hlen : ∀ x ∈ l, (enc x).length = sz) :
    (serializeRecs enc l).length = l.length * sz := by
  induction l with
  | nil => simp [serializeRecs]
  | cons x xs ih =>
    rw [serializeRecs]
    rw [List.length_append, hlen x (List.mem_cons_self x xs),
      ih (fun y hy => hlen y (List.mem_cons_of_mem x hy))]
    simp [Nat.succ_mul]
    ring

theorem decodeRecords_length {α : Type} (sz : Nat) (dec : List Nat → α) (n : Nat)
    (bytes : List Nat) : (decodeRecords sz dec n bytes).length = n := by
  induction n generalizing bytes with
  | zero => rfl
  | succ m ih => simp [decodeRecords, ih]

theorem decodeRecords_serialize {α : Type} (sz : Nat) (enc : α → List Nat)
    (dec : List Nat → α) (l : List α) (n : Nat)
    (hlen : ∀ x ∈ l, (enc x).length = sz)
    (hdec : ∀ x ∈ l, dec (enc x) = x)
    (hn : n ≤ l.length) :
    decodeRecords sz dec n (serializeRecs enc l) = l.take n := by
  induction n generalizing l with
  | zero => simp [decodeRecords]
  | succ m ih =>
    match l with
    | [] => simp at hn
    | x :: xs =>
      rw [serializeRecs, decodeRecords]
      rw [take_append_of_length _ _ sz (hlen x (List.mem_cons_self x xs))]
      rw [drop_append_of_length _ _ sz (hlen x (List.mem_cons_self x xs))]
      rw [hdec x (List.mem_cons_self x xs)]
      rw [ih xs (fun y hy => hlen y (List.mem_cons_of_mem x hy))
        (fun y hy => hdec y (List.mem_cons_of_mem x hy)) (by simpa using hn)]
      rfl

theorem load_save_generic {α : Type} (e : Bool) (k : Nat) (sz cap : Nat)
    (enc : α → List Nat) (dec : List Nat → α) (l : List α) (hsz : 0 < sz)
    (hlen : ∀ x ∈ l, (enc x).length = sz) (hdec : ∀ x ∈ l, dec (enc x) = x)
    (hne : l ≠ []) :
    load_binary_file e k sz dec cap (some (save_binary_file e k enc l)) = l.take cap := by
  unfold load_binary_file save_binary_file
  dsimp only
  have hslen : (serializeRecs enc l).length = l.length * sz := serializeRecs_length enc sz l hlen
  have hblen : (obfuscate_buffer e k (serializeRecs enc l)).length = l.length * sz := by
    rw [obf_length, hslen]
  have hl0 : 0 < l.length := List.length_pos.mpr hne
  rw [if_neg (by rw [hblen]; positivity)]
  rw [obf_obf, hslen]
  rw [Nat.mul_div_cancel _ hsz]
  rw [decodeRecords_serialize sz enc dec l _ hlen hdec (min_le_left ..)]
  rw [min_comm, ← List.take_take, List.take_length]

theorem load_txn_save (e : Bool) (k : Nat) (l : List Transaction)
    (hlen : ∀ x ∈ l, (encTxn x).length = 287) (hdec : ∀ x ∈ l, decTxn (encTxn x) = x)
    (hne : l ≠ []) :
    load_txn_file e k (some (save_binary_file e k encTxn l)) = l := by
  unfold load_txn_file save_binary_file
  dsimp only
  have hslen : (serializeRecs encTxn l).length = l.length * 287 :=
    serializeRecs_length encTxn 287 l hlen
  have hblen : (obfuscate_buffer e k (serializeRecs encTxn l)).length = l.length * 287 := by
    rw [obf_length, hslen]
  have hl0 : 0 < l.length := List.length_pos.mpr hne
  rw [if_neg (by rw [hblen]; positivity)]
  rw [obf_obf, hslen]
  rw [Nat.mul_div_cancel _ (by omega : 0 < 287)]
  rw [decodeRecords_serialize 287 encTxn decTxn l _ hlen hdec le_rfl]
  exact List.take_length l

/-- Round trip of `save_all` then `load_all` from a fresh file system: the
category and budget stores come back truncated to their first 1024 records,
the transaction store comes back whole. -/
theorem load_all_save_all (e : Bool) (k : Nat) (s : State)
    (hc : ∀ c ∈ s.cats, ValidCat c) (ht : ∀ t ∈ s.txns, ValidTxn t)
    (hb : ∀ b ∈ s.budgets, ValidBud b) :
    (load_all e k (save_all e k s fs0)).cats = s.cats.take 1024 ∧
    (load_all e k (save_all e k s fs0)).txns = s.txns ∧
    (load_all e k (save_all e k s fs0)).budgets = s.budgets.take 1024 := by
  unfold load_all save_all fs0
  dsimp only
  refine ⟨?_, ?_, ?_⟩
  · by_cases hcne : s.cats = []
    · simp [hcne, load_binary_file]
    · rw [if_neg hcne]
      exact load_save_generic e k 68 1024 encCat decCat s.cats (by omega)
        (fun c hcm => encCat_length c) (fun c hcm => decCat_encCat c (hc c hcm)) hcne
  · by_cases htne : s.txns = []
    · simp [htne, load_txn_file]
    · rw [if_neg htne]
      exact load_txn_save e k s.txns (fun t htm => encTxn_length t)
        (fun t htm => decTxn_encTxn t (ht t htm)) htne
  · by_cases hbne : s.budgets = []
    · simp [hbne, load_binary_file]
    · rw [if_neg hbne]
      exact load_save_generic e k 20 1024 encBud decBud s.budgets (by omega)
        (fun b hbm => encBud_length b) (fun b hbm => decBud_encBud b (hb b hbm)) hbne

theorem load_binary_file_length_le {α : Type} (e : Bool) (k sz cap : Nat)
    (dec : List Nat → α) (file : Option (List Nat)) :
    (load_binary_file e k sz dec cap file).length ≤ cap := by
  cases file with
  | none => simp [load_binary_file]
  | some bytes =>
    rw [load_binary_file]
    split_ifs with h
    · simp
    · dsimp only
      rw [decodeRecords_length]
      exact min_le_right ..

/-- C2 as amended: for every state whose category and budget stores each
hold at most 1024 records (the load path truncates those two files to 1024
records — see the counterexample and C10) and whose records satisfy the
representation bounds the C types impose, saving all stores and loading
them back — with the byte transform off or on with any single-byte key used
identically on both sides — restores every field of every record of all
three stores exactly. -/
theorem claim_C2_save_load_roundtrip (e : Bool) (k : Nat) (s : State) (_hk : k < 256)
    (hcap1 : s.cats.length ≤ 1024) (hcap2 : s.budgets.length ≤ 1024)
    (hc : ∀ c ∈ s.cats, ValidCat c) (ht : ∀ t ∈ s.txns, ValidTxn t)
    (hb : ∀ b ∈ s.budgets, ValidBud b) :
    (load_all e k (save_all e k s fs0)).cats = s.cats ∧
    (load_all e k (save_all e k s fs0)).txns = s.txns ∧
    (load_all e k (save_all e k s fs0)).budgets = s.budgets := by
  obtain ⟨h1, h2, h3⟩ := load_all_save_all e k s hc ht hb
  exact ⟨by rw [h1]; exact List.take_of_length_le hcap1, h2,
    by rw [h3]; exact List.take_of_length_le hcap2⟩

/-- 1025 identical categories: one more than the load-time stack buffer
holds. -/
def c2cState : State := ⟨List.replicate 1025 ⟨1, [120]⟩, 2, [], 1, []⟩

/-- C2 counterexample: with 1025 categories the save-then-load round trip
does not restore the category store — the 1025th record is silently
dropped by the 1024-record load buffer, so the claim fails for this
in-memory state. -/
theorem claim_C2_counterexample :
    (load_all true 7 (save_all true 7 c2cState fs0)).cats ≠ c2cState.cats := by
  have hc : ∀ c ∈ c2cState.cats, ValidCat c := by
    intro c hcm
    have hcm2 : c = ⟨1, [120]⟩ := List.eq_of_mem_replicate hcm
    rw [hcm2]
    decide
  have ht : ∀ t ∈ c2cState.txns, ValidTxn t := by
    intro t htm
    exact absurd htm (List.not_mem_nil t)
  have hb : ∀ b ∈ c2cState.budgets, ValidBud b := by
    intro b hbm
    exact absurd hbm (List.not_mem_nil b)
  have h := (load_all_save_all true 7 c2cState hc ht hb).1
  intro heq
  rw [h] at heq
  have hlen := congrArg List.length heq
  have hcl : c2cState.cats.length = 1025 := by
    show (List.replicate 1025 (⟨1, [120]⟩ : Category)).length = 1025
    exact List.length_replicate ..
  rw [List.length_take, hcl] at hlen
  omega

/-- One record in every store, for the C2 witness. -/
def c2wState : State :=
  ⟨[⟨1, str "Food"⟩], 2, [⟨1, str "2024-03-15", 85/2, 1, TxnType.Expense, str "lunch"⟩], 2,
    [⟨1, 2024, 3, 100⟩]⟩

/-- Witness for C2: concrete one-record stores, byte transform on with
key 7. -/
theorem claim_C2_witness :
    ((7 : Nat) < 256 ∧ c2wState.cats.length ≤ 1024 ∧ c2wState.budgets.length ≤ 1024 ∧
      (∀ c ∈ c2wState.cats, ValidCat c) ∧ (∀ t ∈ c2wState.txns, ValidTxn t) ∧
      (∀ b ∈ c2wState.budgets, ValidBud b)) ∧
    ((load_all true 7 (save_all true 7 c2wState fs0)).cats = c2wState.cats ∧
      (load_all true 7 (save_all true 7 c2wState fs0)).txns = c2wState.txns ∧
      (load_all true 7 (save_all true 7 c2wState fs0)).budgets = c2wState.budgets) :=
  ⟨⟨by decide, by decide, by decide, by with_unfolding_all decide,
      by with_unfolding_all decide, by with_unfolding_all decide⟩,
    claim_C2_save_load_roundtrip true 7 c2wState (by decide) (by decide) (by decide)
      (by with_unfolding_all decide) (by with_unfolding_all decide)
      (by with_unfolding_all decide)⟩

/-- C10: after loading, the category and budget stores each hold at most
1024 records whatever the files contain; records beyond the first 1024 of
the categories or budgets file are silently discarded (a saved store comes
back as its first 1024 records), while the transactions file is loaded in
full, bounded only by its size. -/
theorem claim_C10_load_caps (e : Bool) (k : Nat) (fs : FS) (s : State)
    (hc : ∀ c ∈ s.cats, ValidCat c) (ht : ∀ t ∈ s.txns, ValidTxn t)
    (hb : ∀ b ∈ s.budgets, ValidBud b) :
    (load_all e k fs).cats.length ≤ 1024 ∧
    (load_all e k fs).budgets.length ≤ 1024 ∧
    (load_all e k (save_all e k s fs0)).cats = s.cats.take 1024 ∧
    (load_all e k (save_all e k s fs0)).budgets = s.budgets.take 1024 ∧
    (load_all e k (save_all e k s fs0)).txns = s.txns := by
  obtain ⟨h1, h2, h3⟩ := load_all_save_all e k s hc ht hb
  constructor
  · show (load_binary_file e k 68 decCat 1024 fs.catFile).length ≤ 1024
    exact load_binary_file_length_le e k 68 1024 decCat fs.catFile
  constructor
  · show (load_binary_file e k 20 decBud 1024 fs.budFile).length ≤ 1024
    exact load_binary_file_length_le e k 20 1024 decBud fs.budFile
  exact ⟨h1, h3, h2⟩

/-- One record in every store, for the C10 witness. -/
def c10wState : State :=
  ⟨[⟨1, str "A"⟩], 2, [⟨1, str "2024-01-01", 1, 1, TxnType.Expense, []⟩], 2,
    [⟨1, 2024, 1, 2⟩]⟩

/-- Witness for C10 at a concrete store and key 3. -/
theorem claim_C10_witness :
    ((∀ c ∈ c10wState.cats, ValidCat c) ∧ (∀ t ∈ c10wState.txns, ValidTxn t) ∧
      (∀ b ∈ c10wState.budgets, ValidBud b)) ∧
    ((load_all true 3 fs0).cats.length ≤ 1024 ∧
      (load_all true 3 fs0).budgets.length ≤ 1024 ∧
      (load_all true 3 (save_all true 3 c10wState fs0)).cats = c10wState.cats.take 1024 ∧
      (load_all true 3 (save_all true 3 c10wState fs0)).budgets = c10wState.budgets.take 1024 ∧
      (load_all true 3 (save_all true 3 c10wState fs0)).txns = c10wState.txns) :=
  ⟨⟨by with_unfolding_all decide, by with_unfolding_all decide,
      by with_unfolding_all decide⟩,
    claim_C10_load_caps true 3 fs0 c10wState (by with_unfolding_all decide)
      (by with_unfolding_all decide) (by with_unfolding_all decide)⟩

/-! ## C3: CSV export and re-import -/

/-- The store of the C3 scenario: Category{1, Food} and
Transaction{1, 2024-03-15, Expense, 42.50, 1, lunch}. -/
def c3State : State :=
  ⟨[⟨1, str "Food"⟩], 2,
    [⟨1, str "2024-03-15", 85/2, 1, TxnType.Expense, str "lunch"⟩], 2, []⟩

set_option maxRecDepth 100000 in
/-- C3 (code evaluated at the failing input): exporting the scenario store
produces exactly the claimed data line `1,2024-03-15,0,42.50,Food,lunch`
(after the header), but re-importing that very file into the fresh store
creates nothing at all: the import loop reads the five fields as
`date,type,amount,category,note`, so the leading id column makes the date
field `1`, date validation fails, and every data line is skipped — no
category named Food and no transaction appear, contradicting the claimed
re-import outcome. -/
theorem claim_C3_export_import_mismatch :
    export_csv c3State =
      [str "id,date,type,amount,category,note", str "1,2024-03-15,0,42.50,Food,lunch"] ∧
    (import_csv (export_csv c3State) initState).cats = [] ∧
    (import_csv (export_csv c3State) initState).txns = [] ∧
    import_csv (export_csv c3State) initState = initState := by
  with_unfolding_all decide
